import Mathlib

/-!
Verification of the OLED128x64 SSD1306 driver (OLED128x64.h / OLED128x64.cpp).

Embedding conventions:
* A C `byte` is a `Nat`; wherever the C code stores an `int` expression into a
  byte-sized location, the embedding takes the value `% 256`.
* The member array `byte _buffer[OLED_WIDTH][OLED_HEIGHT/8]` (indexed
  `_buffer[col][page]`) is a function `Buffer := Nat → Nat → Nat` (column first,
  page second), updated pointwise.
* Every call `_write(data, mode)` is recorded as one `Wr` event; a member
  function of the class is embedded as a function from the buffer (the only
  mutable data member besides the address) to the new buffer paired with the
  list of `Wr` events it emits, in order.
* Loop counters declared as C `char`/`int` counting upward from 0 to a bound
  representable in the counter's type are embedded as iteration over
  `List.range bound`. The one exception is `drawHLine`, whose `char` counter is
  compared with 128: on the library's targets `char` is a signed 8-bit type, so
  that loop never exits; it is embedded by its state after `n` iterations
  together with a model of the signed guard (see `i8ToInt`, `drawHLine`).
* Nonnegative C `int` parameters (rows, columns) are `Nat`; the `percent`
  parameter of `drawProgressBar` is kept as `Int` because its comparison with
  the loop index is signed in the source.
-/

/- ===================== Register names (OLED128x64.h) ===================== -/

def OLED_WIDTH : Nat := 128
def OLED_HEIGHT : Nat := 64
def OLED_DATA_MODE : Nat := 0x40
def OLED_CMD_MODE : Nat := 0x80
def OLED_NORMALDISPLAY : Nat := 0xA6
def OLED_OFF : Nat := 0xAE
def OLED_ON : Nat := 0xAF
def OLED_INVERTDISPLAY : Nat := 0xA7
def OLED_LOWCOLUMN : Nat := 0x00
def OLED_HIGHCOLUMN : Nat := 0x10

/-- One I2C write transaction issued by `_write(data, mode)`: the control byte
(`mode`) followed by the payload byte (`data`). -/
structure Wr where
  mode : Nat
  data : Nat
deriving DecidableEq

/-- Event recorded for `_write(data, mode)` (argument order as in the source). -/
def wr (data mode : Nat) : Wr := ⟨mode, data⟩

/-- The shadow buffer `_buffer[col][page]`: first index is the pixel column
(0..127), second the page (0..7). -/
def Buffer : Type := Nat → Nat → Nat

/-- Pointwise update of one buffer byte. -/
def updBuf (b : Buffer) (c p v : Nat) : Buffer :=
  fun c' p' => if c' = c ∧ p' = p then v else b c' p'

/-- The all-zero (cleared) shadow buffer. -/
def buffer0 : Buffer := fun _ _ => 0

/-- Concatenation of the per-iteration traces of a loop `for (j = 0; j < n; j++)`. -/
def forTrace (n : Nat) (f : Nat → List Wr) : List Wr :=
  (List.range n).foldl (fun t j => t ++ f j) []

/- ======================= Private member functions ======================== -/

/-- `_clearBuffer()`: zero every in-range byte of the shadow buffer. -/
def _clearBuffer (b : Buffer) : Buffer :=
  (List.range OLED_WIDTH).foldl
    (fun b i => (List.range (OLED_HEIGHT / 8)).foldl (fun b j => updBuf b i j 0) b) b

/-- `setCharCursor(X, Y)` trace: page command, then the low and high nibbles of
the pixel column `8*Y`. -/
def setCharCursor_t (X Y : Nat) : List Wr :=
  [wr (0xB0 + X) OLED_CMD_MODE,
   wr (OLED_LOWCOLUMN + (8 * Y &&& 0x0F)) OLED_CMD_MODE,
   wr (OLED_HIGHCOLUMN + (((8 * Y) >>> 4) &&& 0x0F)) OLED_CMD_MODE]

/-- `setCursor(X, col)` trace: page command, then the low and high nibbles of
the pixel column `col`. -/
def setCursor_t (X col : Nat) : List Wr :=
  [wr (0xB0 + X) OLED_CMD_MODE,
   wr (OLED_LOWCOLUMN + (col &&& 0x0F)) OLED_CMD_MODE,
   wr (OLED_HIGHCOLUMN + ((col >>> 4) &&& 0x0F)) OLED_CMD_MODE]

/-- `_clearScreen()` trace: for each page, position at the start of the page and
stream `OLED_WIDTH` zero data bytes; finally reset the cursor to cell (0,0). -/
def _clearScreen_t : List Wr :=
  forTrace (OLED_HEIGHT / 8)
    (fun j => setCharCursor_t j 0 ++ List.replicate OLED_WIDTH (wr 0 OLED_DATA_MODE))
  ++ setCharCursor_t 0 0

/-- `_clearCharBuffer(X, Y)`: zero the 8 shadow bytes `_buffer[Y*8+i][X]`. -/
def _clearCharBuffer (b : Buffer) (X Y : Nat) : Buffer :=
  (List.range 8).foldl (fun b i => updBuf b (Y * 8 + i) X 0) b

/-- `_clearCharScreen(X, Y)` trace: position at cell (X, Y) and stream 8 zero
data bytes. -/
def _clearCharScreen_t (X Y : Nat) : List Wr :=
  setCharCursor_t X Y ++ List.replicate 8 (wr 0x00 OLED_DATA_MODE)

/- ======================== Public member functions ======================== -/

/-- `setPixel(row, col, val)`: OR the bit `row % 8` into the shadow byte at
`[col][row/8]` (stored back into a byte, hence `% 256`), then reposition the
cursor and transmit the updated shadow byte as data. -/
def setPixel (b : Buffer) (row col : Nat) (val : Bool) : Buffer × List Wr :=
  let b' := updBuf b col (row / 8)
    ((b col (row / 8) ||| ((if val then 1 else 0) <<< (row % 8))) % 256)
  (b', [wr (0xB0 + row / 8) OLED_CMD_MODE,
        wr (OLED_LOWCOLUMN + (col &&& 0x0F)) OLED_CMD_MODE,
        wr (OLED_HIGHCOLUMN + ((col >>> 4) &&& 0x0F)) OLED_CMD_MODE,
        wr (b' col (row / 8)) OLED_DATA_MODE])

/-- `setInvertedDisplay(val)`: one command byte, no buffer effect. -/
def setInvertedDisplay (b : Buffer) (val : Bool) : Buffer × List Wr :=
  (b, if val then [wr OLED_INVERTDISPLAY OLED_CMD_MODE]
      else [wr OLED_NORMALDISPLAY OLED_CMD_MODE])

/-- `powerOn()`: transmits `OLED_ON` as a command byte, no buffer effect. -/
def powerOn (b : Buffer) : Buffer × List Wr :=
  (b, [wr OLED_ON OLED_CMD_MODE])

/-- `powerOff()`: transmits `OLED_OFF` as a command byte, no buffer effect. -/
def powerOff (b : Buffer) : Buffer × List Wr :=
  (b, [wr OLED_OFF OLED_CMD_MODE])

/-- `clear()`: `_clearScreen()`, then `_clearBuffer()`, then `setCharCursor(0,0)`. -/
def clear (b : Buffer) : Buffer × List Wr :=
  (_clearBuffer b, _clearScreen_t ++ setCharCursor_t 0 0)

/-- `clearChar(X, Y)`: `_clearCharBuffer`, `_clearCharScreen`, cursor to (0,0). -/
def clearChar (b : Buffer) (X Y : Nat) : Buffer × List Wr :=
  (_clearCharBuffer b X Y, _clearCharScreen_t X Y ++ setCharCursor_t 0 0)

/-- `clearCharRow(X)`: for each of the `OLED_WIDTH/8` cells of row `X`, clear it
in the buffer and on the screen; finally cursor to (0,0). -/
def clearCharRow (b : Buffer) (X : Nat) : Buffer × List Wr :=
  let s := (List.range (OLED_WIDTH / 8)).foldl
    (fun s j => (_clearCharBuffer s.1 X j, s.2 ++ _clearCharScreen_t X j))
    (b, ([] : List Wr))
  (s.1, s.2 ++ setCharCursor_t 0 0)

/-- The 100 data bytes of the progress-bar body: byte `i` is `0x7E` when
`percent >= i` (signed comparison in the source), else `0x42`. -/
def progressBody (percent : Int) : List Wr :=
  (List.range 100).map
    (fun (i : Nat) => wr (if percent ≥ (i : Int) then 0x7E else 0x42) OLED_DATA_MODE)

/-- `drawProgressBar(X, percent)`: clear the character row when `percent == 0`,
draw the two layout bytes at pixel columns 12 and 113, then stream the 100-byte
bar body starting at pixel column 13. -/
def drawProgressBar (b : Buffer) (X : Nat) (percent : Int) : Buffer × List Wr :=
  let s := if percent = 0 then clearCharRow b X else (b, [])
  (s.1, s.2 ++ setCursor_t X 12 ++ [wr 0x7E OLED_DATA_MODE]
       ++ setCursor_t X 113 ++ [wr 0x7E OLED_DATA_MODE]
       ++ setCursor_t X 13 ++ progressBody percent)

/-- Data bytes streamed by `drawStr`'s `while(*string)` loop: one 8-byte glyph
per character, stopping at the first NUL byte. The font is the external glyph
table, `font ch i` being byte `i` of the glyph of character code `ch`. -/
def drawStrData (font : Nat → Nat → Nat) : List Nat → List Wr
  | [] => []
  | ch :: rest =>
      if ch = 0 then []
      else (List.range 8).map (fun i => wr (font ch i) OLED_DATA_MODE)
           ++ drawStrData font rest

/-- `drawStr(string, X, Y, font)`: position at cell (X, Y), then stream the
glyph bytes of the string. No buffer effect. -/
def drawStr (b : Buffer) (string : List Nat) (X Y : Nat)
    (font : Nat → Nat → Nat) : Buffer × List Wr :=
  (b, setCharCursor_t X Y ++ drawStrData font string)

/-- `drawImage(data)`: `clear()`, `setCharCursor(0,0)`, then stream
`OLED_WIDTH*OLED_HEIGHT/8` raw bytes read from `data`. The image is the
external byte array, modelled as the function giving its `i`-th byte. -/
def drawImage (b : Buffer) (data : Nat → Nat) : Buffer × List Wr :=
  let c := clear b
  (c.1, c.2 ++ setCharCursor_t 0 0
       ++ (List.range (OLED_WIDTH * OLED_HEIGHT / 8)).map
            (fun i => wr (data i) OLED_DATA_MODE))

/-- Signed interpretation of an 8-bit `char` bit pattern: 0..127 denote
themselves, 128..255 denote negative values (two's complement). `drawHLine`'s
loop counter `char i` stores the pattern `k % 256` after `k` increments from 0,
and after integer promotion its loop guard compares `i8ToInt` of that pattern
with 128. -/
def i8ToInt (bits : Nat) : Int :=
  if bits < 128 then (bits : Int) else (bits : Int) - 256

/-- `drawHLine(row)`: positions at cell `(row/8, 0)`, then runs the loop
`for (char i = 0; i < 128; i++)` whose body writes one data byte
`0 | (1 << (row % 8))` (stored in an `unsigned char`, hence `% 256`).
On the library's targets `char` is a signed 8-bit type, so the guard
`i < 128` holds for every representable value of `i` (see `i8ToInt`): the loop
never exits, and the final `setCharCursor(0,0)` of the source is unreachable.
The embedding is therefore indexed by the iteration count: `drawHLine b row n`
is the buffer (never written by the body) and the trace emitted after the
first `n` iterations. No buffer effect. -/
def drawHLine (b : Buffer) (row : Nat) (n : Nat) : Buffer × List Wr :=
  let value := (0 ||| (1 <<< (row % 8))) % 256
  (b, setCharCursor_t (row / 8) 0
      ++ List.replicate n (wr value OLED_DATA_MODE))

/-- `drawVLine(col)`: for each of the 8 pages, position at `(page, col)` and
write one `0xFF` data byte; then reset the cursor. No buffer effect. -/
def drawVLine (b : Buffer) (col : Nat) : Buffer × List Wr :=
  (b, forTrace 8 (fun k => setCursor_t k col ++ [wr 0xFF OLED_DATA_MODE])
      ++ setCharCursor_t 0 0)

/- ===================== Device model (SSD1306 side) ======================= -/

/-- Modelled from the spec: the controller's state — the implicit hardware
write cursor (page and column, spec §3 "Cursor State") and the device display
RAM, `ram page col`. The repository contains no device code; this model follows
the spec's description of the page/column addressing protocol (§4.1) and of the
auto-incrementing cursor (§3, §4.2 drawImage: after the last column of a page
the cursor moves to the next page, as required by the column-major blit). -/
@[ext] structure Device where
  page : Nat
  col : Nat
  ram : Nat → Nat → Nat

/-- Pointwise update of one device RAM byte. -/
def updRam (r : Nat → Nat → Nat) (p c v : Nat) : Nat → Nat → Nat :=
  fun p' c' => if p' = p ∧ c' = c then v else r p' c'

/-- Modelled from the spec: effect of one `_write` transaction on the device.
A command byte `0xB0+p` (p < 8) selects page `p`; `0x00..0x0F` sets the low
nibble of the column; `0x10..0x1F` sets the high nibble; other commands do not
move the cursor. A data byte lands at the cursor and the cursor advances,
wrapping from the end of a page to the start of the next. -/
def Device.applyWr (dev : Device) (w : Wr) : Device :=
  if w.mode = OLED_CMD_MODE then
    if 0xB0 ≤ w.data ∧ w.data < 0xB0 + OLED_HEIGHT / 8 then
      { dev with page := w.data - 0xB0 }
    else if w.data < 0x10 then
      { dev with col := dev.col / 16 * 16 + w.data }
    else if 0x10 ≤ w.data ∧ w.data < 0x20 then
      { dev with col := (w.data - 0x10) * 16 + dev.col % 16 }
    else dev
  else if w.mode = OLED_DATA_MODE then
    { page := if dev.col + 1 = OLED_WIDTH then (dev.page + 1) % (OLED_HEIGHT / 8)
              else dev.page,
      col := if dev.col + 1 = OLED_WIDTH then 0 else dev.col + 1,
      ram := updRam dev.ram dev.page dev.col w.data }
  else dev

/-- Run a trace of write transactions through the device model. -/
def applyTrace (dev : Device) (t : List Wr) : Device :=
  t.foldl Device.applyWr dev

/-- The cleared device: cursor at (0,0), RAM all zero. -/
def dev0 : Device := ⟨0, 0, fun _ _ => 0⟩

/-- The consistency invariant of spec §3: every in-range shadow-buffer byte
`[col][page]` equals the device RAM byte at `(page, col)`. -/
def BufMatchesRam (b : Buffer) (d : Device) : Prop :=
  ∀ c < OLED_WIDTH, ∀ p < OLED_HEIGHT / 8, b c p = d.ram p c

instance (b : Buffer) (d : Device) : Decidable (BufMatchesRam b d) :=
  inferInstanceAs (Decidable (∀ c < OLED_WIDTH, ∀ p < OLED_HEIGHT / 8, b c p = d.ram p c))

/- ============ Sequences of buffer-tracked primitive calls ================ -/

/-- The primitives that keep the shadow buffer in lock-step with the device
(the clear family and `setPixel`) together with the command-only operations. -/
inductive TrackedCall where
  | clear : TrackedCall
  | clearChar (X Y : Nat) : TrackedCall
  | clearCharRow (X : Nat) : TrackedCall
  | setPixel (row col : Nat) (val : Bool) : TrackedCall
  | powerOn : TrackedCall
  | powerOff : TrackedCall
  | setInvertedDisplay (val : Bool) : TrackedCall

/-- In-range arguments for a tracked call (the documented parameter ranges). -/
def TrackedCall.InRange : TrackedCall → Bool
  | .clear => true
  | .clearChar X Y => decide (X < 8) && decide (Y < 16)
  | .clearCharRow X => decide (X < 8)
  | .setPixel row col _ => decide (row < 64) && decide (col < 128)
  | .powerOn => true
  | .powerOff => true
  | .setInvertedDisplay _ => true

/-- Run one tracked call on the shadow buffer, returning the new buffer and the
emitted trace. -/
def callRun (b : Buffer) : TrackedCall → Buffer × List Wr
  | .clear => clear b
  | .clearChar X Y => clearChar b X Y
  | .clearCharRow X => clearCharRow b X
  | .setPixel row col val => setPixel b row col val
  | .powerOn => powerOn b
  | .powerOff => powerOff b
  | .setInvertedDisplay val => setInvertedDisplay b val

/-- Run one tracked call on the combined host/device state. -/
def step (s : Buffer × Device) (call : TrackedCall) : Buffer × Device :=
  ((callRun s.1 call).1, applyTrace s.2 (callRun s.1 call).2)

/-- Run a sequence of tracked calls on the combined host/device state. -/
def runCalls (s : Buffer × Device) (calls : List TrackedCall) : Buffer × Device :=
  calls.foldl step s

/-- A run of data transactions carrying the given payload bytes. -/
def dataTrace (l : List Nat) : List Wr :=
  l.map (fun v => wr v OLED_DATA_MODE)

/-- The payload bytes of the data transactions of a trace, in order. -/
def dataBytes (t : List Wr) : List Nat :=
  (t.filter (fun w => w.mode == OLED_DATA_MODE)).map Wr.data

/-- A sample shadow-buffer state with every byte 0x41, used as a concrete
prior state in witnesses. -/
def bTest : Buffer := fun _ _ => 0x41

/- ========================== Generic list lemmas ========================== -/

lemma applyTrace_append (d : Device) (t1 t2 : List Wr) :
    applyTrace d (t1 ++ t2) = applyTrace (applyTrace d t1) t2 := by
  simp [applyTrace, List.foldl_append]

lemma applyTrace_nil (d : Device) : applyTrace d [] = d := rfl

lemma applyTrace_cons (d : Device) (w : Wr) (t : List Wr) :
    applyTrace d (w :: t) = applyTrace (d.applyWr w) t := rfl

lemma forTrace_succ (n : Nat) (f : Nat → List Wr) :
    forTrace (n + 1) f = forTrace n f ++ f n := by
  have h := List.range_succ (n := n)
  rw [Nat.succ_eq_add_one] at h
  simp [forTrace, h, List.foldl_append]

lemma forTrace_zero (f : Nat → List Wr) : forTrace 0 f = [] := rfl

lemma getD_replicate (n i a : Nat) : (List.replicate n a).getD i a = a := by
  induction n generalizing i with
  | zero => simp
  | succ n ih =>
      cases i with
      | zero => simp [List.replicate_succ]
      | succ i => simpa [List.replicate_succ] using ih i

/- ========================= Nibble reconstruction ========================= -/

lemma land_fifteen (c : Nat) (h : c < 128) : c &&& 15 = c % 16 := by
  revert h; revert c; decide

lemma shiftRight_four (c : Nat) (h : c < 128) : (c >>> 4) &&& 15 = c / 16 := by
  revert h; revert c; decide

/- ===================== Device single-write lemmas ======================== -/

lemma applyWr_page (d : Device) (X : Nat) (hX : X < 8) :
    d.applyWr (wr (0xB0 + X) OLED_CMD_MODE) = { d with page := X } := by
  simp only [Device.applyWr, wr, OLED_CMD_MODE, OLED_HEIGHT, OLED_WIDTH, OLED_DATA_MODE]
  norm_num
  split_ifs
  all_goals intros
  all_goals first | (exfalso; omega) | rfl | (congr 1 <;> omega)

lemma applyWr_lowcol (d : Device) (v : Nat) (hv : v < 16) :
    d.applyWr (wr (OLED_LOWCOLUMN + v) OLED_CMD_MODE)
      = { d with col := d.col / 16 * 16 + v } := by
  simp only [Device.applyWr, wr, OLED_CMD_MODE, OLED_HEIGHT, OLED_WIDTH, OLED_DATA_MODE,
    OLED_LOWCOLUMN]
  norm_num
  split_ifs
  all_goals intros
  all_goals first | (exfalso; omega) | rfl | (congr 1 <;> omega)

lemma applyWr_highcol (d : Device) (v : Nat) (hv : v < 16) :
    d.applyWr (wr (OLED_HIGHCOLUMN + v) OLED_CMD_MODE)
      = { d with col := v * 16 + d.col % 16 } := by
  simp only [Device.applyWr, wr, OLED_CMD_MODE, OLED_HEIGHT, OLED_WIDTH, OLED_DATA_MODE,
    OLED_HIGHCOLUMN]
  norm_num
  split_ifs
  all_goals intros
  all_goals first | (exfalso; omega) | rfl | (congr 1 <;> omega)

lemma applyWr_data (d : Device) (v : Nat) :
    d.applyWr (wr v OLED_DATA_MODE)
      = { page := if d.col + 1 = 128 then (d.page + 1) % 8 else d.page,
          col := if d.col + 1 = 128 then 0 else d.col + 1,
          ram := updRam d.ram d.page d.col v } := by
  simp only [Device.applyWr, wr, OLED_CMD_MODE, OLED_HEIGHT, OLED_WIDTH, OLED_DATA_MODE]
  norm_num

lemma applyWr_cmd_other (d : Device) (v : Nat)
    (h1 : ¬ (0xB0 ≤ v ∧ v < 0xB8)) (h2 : ¬ v < 0x10) (h3 : ¬ (0x10 ≤ v ∧ v < 0x20)) :
    d.applyWr (wr v OLED_CMD_MODE) = d := by
  simp only [Device.applyWr, wr, OLED_CMD_MODE, OLED_HEIGHT, OLED_WIDTH, OLED_DATA_MODE]
  norm_num
  split_ifs
  all_goals intros
  all_goals first | (exfalso; omega) | rfl | (congr 1 <;> omega)

/- ====================== Device cursor-run lemmas ========================= -/

lemma applyTrace_setCursor_t (d : Device) (X c : Nat) (hX : X < 8) (hc : c < 128) :
    applyTrace d (setCursor_t X c) = { page := X, col := c, ram := d.ram } := by
  have hl : c &&& 0x0F = c % 16 := land_fifteen c hc
  have hh : (c >>> 4) &&& 0x0F = c / 16 := shiftRight_four c hc
  have hl16 : c % 16 < 16 := Nat.mod_lt _ (by omega)
  have hh16 : c / 16 < 16 := by omega
  rw [setCursor_t, hl, hh, applyTrace_cons, applyWr_page d X hX,
      applyTrace_cons, applyWr_lowcol _ _ hl16,
      applyTrace_cons, applyWr_highcol _ _ hh16, applyTrace_nil]
  dsimp only
  congr 1
  omega

lemma applyTrace_setCharCursor_t (d : Device) (X Y : Nat) (hX : X < 8) (hY : Y < 16) :
    applyTrace d (setCharCursor_t X Y) = { page := X, col := 8 * Y, ram := d.ram } := by
  have hc : 8 * Y < 128 := by omega
  have hl : 8 * Y &&& 0x0F = 8 * Y % 16 := land_fifteen _ hc
  have hh : ((8 * Y) >>> 4) &&& 0x0F = 8 * Y / 16 := shiftRight_four _ hc
  have hl16 : 8 * Y % 16 < 16 := Nat.mod_lt _ (by omega)
  have hh16 : 8 * Y / 16 < 16 := by omega
  rw [setCharCursor_t, hl, hh, applyTrace_cons, applyWr_page d X hX,
      applyTrace_cons, applyWr_lowcol _ _ hl16,
      applyTrace_cons, applyWr_highcol _ _ hh16, applyTrace_nil]
  dsimp only
  congr 1
  omega

/- ======================= Device data-run lemmas ========================== -/

lemma dataTrace_replicate (n v : Nat) :
    dataTrace (List.replicate n v) = List.replicate n (wr v OLED_DATA_MODE) := by
  simp [dataTrace]

/-- Effect of streaming a list of data bytes that fits inside the current page:
each byte lands at consecutive columns starting at the cursor, and the cursor
advances (wrapping to the next page exactly when the run ends at column 128). -/
lemma applyTrace_dataTrace (l : List Nat) : ∀ d : Device,
    d.col + l.length ≤ 128 → d.col < 128 →
    applyTrace d (dataTrace l) =
      { page := if d.col + l.length = 128 then (d.page + 1) % 8 else d.page,
        col := if d.col + l.length = 128 then 0 else d.col + l.length,
        ram := fun p c => if p = d.page ∧ d.col ≤ c ∧ c < d.col + l.length
                          then l.getD (c - d.col) 0 else d.ram p c } := by
  induction l with
  | nil =>
      intro d h1 h2
      have hne : ¬ (d.col + List.length ([] : List Nat) = 128) := by
        simp only [List.length_nil]
        omega
      rw [show dataTrace ([] : List Nat) = [] from rfl, applyTrace_nil]
      refine Device.ext ?_ ?_ ?_ <;> dsimp only
      · rw [if_neg hne]
      · rw [if_neg hne]
        simp
      · funext p c
        rw [if_neg]
        rintro ⟨_, h3, h4⟩
        simp only [List.length_nil] at h4
        omega
  | cons v l' ih =>
      intro d h1 h2
      have hlen : (v :: l').length = l'.length + 1 := by simp
      rw [hlen] at h1
      rw [show dataTrace (v :: l') = wr v OLED_DATA_MODE :: dataTrace l' from rfl,
          applyTrace_cons, applyWr_data]
      by_cases hw : d.col + 1 = 128
      · have hl0 : l' = [] := by
          have : l'.length = 0 := by omega
          exact List.length_eq_zero.mp this
        subst hl0
        rw [show dataTrace ([] : List Nat) = [] from rfl, applyTrace_nil]
        have e1 : d.col + (v :: ([] : List Nat)).length = 128 := by
          simp only [List.length_cons, List.length_nil]
          omega
        refine Device.ext ?_ ?_ ?_ <;> dsimp only
        · rw [if_pos hw, if_pos e1]
        · rw [if_pos hw, if_pos e1]
        · funext p c
          simp only [updRam, List.length_cons, List.length_nil]
          by_cases hp : p = d.page ∧ c = d.col
          · have hR : p = d.page ∧ d.col ≤ c ∧ c < d.col + (0 + 1) :=
              ⟨hp.1, by omega, by omega⟩
            rw [if_pos hp, if_pos hR, hp.2]
            simp
          · rw [if_neg hp, if_neg]
            rintro ⟨hx, hy, hz⟩
            exact hp ⟨hx, by omega⟩
      · have hcol1 : d.col + 1 < 128 := by omega
        simp only [if_neg hw]
        rw [ih { page := d.page, col := d.col + 1, ram := updRam d.ram d.page d.col v }
              (show d.col + 1 + l'.length ≤ 128 by omega)
              (show d.col + 1 < 128 from hcol1)]
        refine Device.ext ?_ ?_ ?_ <;> dsimp only
        · simp only [List.length_cons]
          by_cases h128 : d.col + (l'.length + 1) = 128
          · rw [if_pos (show d.col + 1 + l'.length = 128 by omega), if_pos h128]
          · rw [if_neg (show ¬ d.col + 1 + l'.length = 128 by omega), if_neg h128]
        · simp only [List.length_cons]
          by_cases h128 : d.col + (l'.length + 1) = 128
          · rw [if_pos (show d.col + 1 + l'.length = 128 by omega), if_pos h128]
          · rw [if_neg (show ¬ d.col + 1 + l'.length = 128 by omega), if_neg h128]
            omega
        · funext p c
          simp only [updRam, List.length_cons]
          by_cases hp : p = d.page
          · by_cases hin : d.col ≤ c ∧ c < d.col + (l'.length + 1)
            · have hR : p = d.page ∧ d.col ≤ c ∧ c < d.col + (l'.length + 1) :=
                ⟨hp, hin.1, hin.2⟩
              rw [if_pos hR]
              by_cases hc0 : c = d.col
              · rw [if_neg (show ¬ (p = d.page ∧ d.col + 1 ≤ c ∧
                      c < d.col + 1 + l'.length) by rintro ⟨_, hx, _⟩; omega)]
                rw [if_pos (show p = d.page ∧ c = d.col from ⟨hp, hc0⟩), hc0]
                simp
              · have hL : p = d.page ∧ d.col + 1 ≤ c ∧ c < d.col + 1 + l'.length :=
                  ⟨hp, by omega, by omega⟩
                rw [if_pos hL]
                have hidx : c - d.col = (c - (d.col + 1)) + 1 := by omega
                rw [hidx, List.getD_cons_succ]
            · rw [if_neg (show ¬ (p = d.page ∧ d.col + 1 ≤ c ∧
                    c < d.col + 1 + l'.length) by
                  rintro ⟨_, hx, hy⟩; exact hin ⟨by omega, by omega⟩)]
              rw [if_neg (show ¬ (p = d.page ∧ c = d.col) by
                  rintro ⟨_, hc'⟩; exact hin ⟨by omega, by omega⟩)]
              rw [if_neg (show ¬ (p = d.page ∧ d.col ≤ c ∧
                    c < d.col + (l'.length + 1)) by
                  rintro ⟨_, hx, hy⟩; exact hin ⟨hx, hy⟩)]
          · rw [if_neg (show ¬ (p = d.page ∧ d.col + 1 ≤ c ∧
                  c < d.col + 1 + l'.length) by rintro ⟨hx, _⟩; exact hp hx)]
            rw [if_neg (show ¬ (p = d.page ∧ c = d.col) by
                rintro ⟨hx, _⟩; exact hp hx)]
            rw [if_neg (show ¬ (p = d.page ∧ d.col ≤ c ∧
                  c < d.col + (l'.length + 1)) by rintro ⟨hx, _⟩; exact hp hx)]

/- ====================== Buffer characterizations ========================= -/

lemma clearCharBuffer_aux (b : Buffer) (X Y : Nat) : ∀ n,
    (List.range n).foldl (fun b i => updBuf b (Y * 8 + i) X 0) b
      = fun c p => if (Y * 8 ≤ c ∧ c < Y * 8 + n) ∧ p = X then 0 else b c p := by
  intro n
  induction n with
  | zero =>
      funext c p
      simp only [List.range_zero, List.foldl_nil]
      rw [if_neg]
      rintro ⟨⟨h1, h2⟩, _⟩
      omega
  | succ n ih =>
      have h := List.range_succ (n := n)
      rw [Nat.succ_eq_add_one] at h
      rw [h, List.foldl_append, ih]
      funext c p
      simp only [List.foldl_cons, List.foldl_nil, updBuf]
      by_cases hc : c = Y * 8 + n ∧ p = X
      · rw [if_pos hc, if_pos ⟨⟨by omega, by omega⟩, hc.2⟩]
      · rw [if_neg hc]
        by_cases hin : (Y * 8 ≤ c ∧ c < Y * 8 + n) ∧ p = X
        · rw [if_pos hin, if_pos ⟨⟨hin.1.1, by omega⟩, hin.2⟩]
        · rw [if_neg hin, if_neg]
          rintro ⟨⟨h1, h2⟩, h3⟩
          by_cases he : c = Y * 8 + n
          · exact hc ⟨he, h3⟩
          · exact hin ⟨⟨h1, by omega⟩, h3⟩

lemma _clearCharBuffer_eq (b : Buffer) (X Y : Nat) :
    _clearCharBuffer b X Y
      = fun c p => if (Y * 8 ≤ c ∧ c < Y * 8 + 8) ∧ p = X then 0 else b c p :=
  clearCharBuffer_aux b X Y 8

lemma clearColBuffer_aux (b : Buffer) (i : Nat) : ∀ m,
    (List.range m).foldl (fun b j => updBuf b i j 0) b
      = fun c p => if c = i ∧ p < m then 0 else b c p := by
  intro m
  induction m with
  | zero =>
      funext c p
      simp only [List.range_zero, List.foldl_nil]
      rw [if_neg]
      rintro ⟨_, h2⟩
      omega
  | succ m ih =>
      have h := List.range_succ (n := m)
      rw [Nat.succ_eq_add_one] at h
      rw [h, List.foldl_append, ih]
      funext c p
      simp only [List.foldl_cons, List.foldl_nil, updBuf]
      by_cases hc : c = i ∧ p = m
      · rw [if_pos hc, if_pos ⟨hc.1, by omega⟩]
      · rw [if_neg hc]
        by_cases hin : c = i ∧ p < m
        · rw [if_pos hin, if_pos ⟨hin.1, by omega⟩]
        · rw [if_neg hin, if_neg]
          rintro ⟨h1, h2⟩
          by_cases he : p = m
          · exact hc ⟨h1, he⟩
          · exact hin ⟨h1, by omega⟩

lemma _clearBuffer_eq (b : Buffer) :
    _clearBuffer b = fun c p => if c < 128 ∧ p < 8 then 0 else b c p := by
  rw [show _clearBuffer b = (List.range 128).foldl
      (fun b i => (List.range 8).foldl (fun b j => updBuf b i j 0) b) b from rfl]
  have haux : ∀ n, (List.range n).foldl
      (fun b i => (List.range 8).foldl (fun b j => updBuf b i j 0) b) b
      = fun c p => if c < n ∧ p < 8 then 0 else b c p := by
    intro n
    induction n with
    | zero =>
        funext c p
        simp only [List.range_zero, List.foldl_nil]
        rw [if_neg]
        rintro ⟨h1, _⟩
        omega
    | succ n ih =>
        have h := List.range_succ (n := n)
        rw [Nat.succ_eq_add_one] at h
        rw [h, List.foldl_append, ih]
        funext c p
        simp only [List.foldl_cons, List.foldl_nil]
        rw [clearColBuffer_aux]
        dsimp only
        by_cases hc : c = n ∧ p < 8
        · rw [if_pos hc, if_pos ⟨by omega, hc.2⟩]
        · rw [if_neg hc]
          by_cases hin : c < n ∧ p < 8
          · rw [if_pos hin, if_pos ⟨by omega, hin.2⟩]
          · rw [if_neg hin, if_neg]
            rintro ⟨h1, h2⟩
            by_cases he : c = n
            · exact hc ⟨he, h2⟩
            · exact hin ⟨by omega, h2⟩
  exact haux 128

lemma foldl_trace_shift (h : Nat → List Wr) : ∀ (l : List Nat) (t : List Wr),
    l.foldl (fun t j => t ++ h j) t = t ++ l.foldl (fun t j => t ++ h j) [] := by
  intro l
  induction l with
  | nil => intro t; simp
  | cons a l ih =>
      intro t
      simp only [List.foldl_cons, List.nil_append]
      rw [ih (t ++ h a), ih (h a)]
      simp only [List.append_assoc]

lemma foldl_pair_split (g : Buffer → Nat → Buffer) (h : Nat → List Wr) :
    ∀ (l : List Nat) (b : Buffer) (t : List Wr),
    l.foldl (fun s j => (g s.1 j, s.2 ++ h j)) (b, t)
      = (l.foldl g b, t ++ l.foldl (fun t j => t ++ h j) []) := by
  intro l
  induction l with
  | nil => intro b t; simp
  | cons a l ih =>
      intro b t
      simp only [List.foldl_cons, List.nil_append]
      rw [ih (g b a) (t ++ h a), foldl_trace_shift h l (h a)]
      simp only [List.append_assoc]

lemma clearCharRow_eq (b : Buffer) (X : Nat) :
    clearCharRow b X
      = ((List.range 16).foldl (fun b j => _clearCharBuffer b X j) b,
         forTrace 16 (fun j => _clearCharScreen_t X j) ++ setCharCursor_t 0 0) := by
  rw [show clearCharRow b X = (((List.range 16).foldl
        (fun s j => (_clearCharBuffer s.1 X j, s.2 ++ _clearCharScreen_t X j))
        (b, ([] : List Wr))).1,
      ((List.range 16).foldl
        (fun s j => (_clearCharBuffer s.1 X j, s.2 ++ _clearCharScreen_t X j))
        (b, ([] : List Wr))).2 ++ setCharCursor_t 0 0) from rfl]
  rw [foldl_pair_split (fun b j => _clearCharBuffer b X j)
        (fun j => _clearCharScreen_t X j) (List.range 16) b []]
  rfl

lemma clearCharRowBuffer_aux (b : Buffer) (X : Nat) : ∀ n,
    (List.range n).foldl (fun b j => _clearCharBuffer b X j) b
      = fun c p => if c < 8 * n ∧ p = X then 0 else b c p := by
  intro n
  induction n with
  | zero =>
      funext c p
      simp only [List.range_zero, List.foldl_nil]
      rw [if_neg]
      rintro ⟨h1, _⟩
      omega
  | succ n ih =>
      have h := List.range_succ (n := n)
      rw [Nat.succ_eq_add_one] at h
      rw [h, List.foldl_append, ih]
      funext c p
      simp only [List.foldl_cons, List.foldl_nil]
      rw [_clearCharBuffer_eq]
      dsimp only
      by_cases hc : (n * 8 ≤ c ∧ c < n * 8 + 8) ∧ p = X
      · rw [if_pos hc, if_pos ⟨by omega, hc.2⟩]
      · rw [if_neg hc]
        by_cases hin : c < 8 * n ∧ p = X
        · rw [if_pos hin, if_pos ⟨by omega, hin.2⟩]
        · rw [if_neg hin, if_neg]
          rintro ⟨h1, h2⟩
          by_cases he : n * 8 ≤ c
          · exact hc ⟨⟨he, by omega⟩, h2⟩
          · exact hin ⟨by omega, h2⟩

/- ================= Device effect of composite primitives ================= -/

lemma cellScreenRun (d : Device) (X Y : Nat) (hX : X < 8) (hY : Y < 16) :
    applyTrace d (_clearCharScreen_t X Y) =
      { page := if 8 * Y + 8 = 128 then (X + 1) % 8 else X,
        col := if 8 * Y + 8 = 128 then 0 else 8 * Y + 8,
        ram := fun p c => if p = X ∧ 8 * Y ≤ c ∧ c < 8 * Y + 8 then 0
                          else d.ram p c } := by
  rw [_clearCharScreen_t, applyTrace_append, applyTrace_setCharCursor_t d X Y hX hY,
      ← dataTrace_replicate,
      applyTrace_dataTrace (List.replicate 8 0)
        { page := X, col := 8 * Y, ram := d.ram }
        (show 8 * Y + (List.replicate 8 (0 : Nat)).length ≤ 128 by simp; omega)
        (show 8 * Y < 128 by omega)]
  refine Device.ext ?_ ?_ ?_ <;> dsimp only <;> simp only [List.length_replicate]
  funext p c
  dsimp only
  by_cases hin : p = X ∧ 8 * Y ≤ c ∧ c < 8 * Y + 8
  · rw [if_pos hin, if_pos hin, getD_replicate]
  · rw [if_neg hin, if_neg hin]

lemma clearPageRun (d : Device) (j : Nat) (hj : j < 8) :
    applyTrace d (setCharCursor_t j 0 ++ List.replicate 128 (wr 0 OLED_DATA_MODE)) =
      { page := (j + 1) % 8, col := 0,
        ram := fun p c => if p = j ∧ c < 128 then 0 else d.ram p c } := by
  rw [applyTrace_append, applyTrace_setCharCursor_t d j 0 hj (by omega),
      ← dataTrace_replicate,
      applyTrace_dataTrace (List.replicate 128 0)
        { page := j, col := 8 * 0, ram := d.ram }
        (show 8 * 0 + (List.replicate 128 (0 : Nat)).length ≤ 128 by simp)
        (show 8 * 0 < 128 by omega)]
  refine Device.ext ?_ ?_ ?_ <;> dsimp only <;> simp only [List.length_replicate]
  · rw [if_pos trivial]
  · rw [if_pos trivial]
  · funext p c
    by_cases hin : p = j ∧ c < 128
    · rw [if_pos (show p = j ∧ 8 * 0 ≤ c ∧ c < 8 * 0 + 128 from
            ⟨hin.1, by omega, by omega⟩), if_pos hin, getD_replicate]
    · rw [if_neg (show ¬ (p = j ∧ 8 * 0 ≤ c ∧ c < 8 * 0 + 128) by
            rintro ⟨h1, _, h3⟩; exact hin ⟨h1, by omega⟩), if_neg hin]

lemma clearPagesRun (d : Device) : ∀ k, k ≤ 8 →
    applyTrace d (forTrace k (fun j =>
        setCharCursor_t j 0 ++ List.replicate 128 (wr 0 OLED_DATA_MODE)))
      = { page := if k = 0 then d.page else k % 8,
          col := if k = 0 then d.col else 0,
          ram := fun p c => if p < k ∧ c < 128 then 0 else d.ram p c } := by
  intro k
  induction k with
  | zero =>
      intro _
      rw [forTrace_zero, applyTrace_nil]
      refine Device.ext ?_ ?_ ?_ <;> dsimp only
      · rw [if_pos (show (0 : Nat) = 0 from rfl)]
      · rw [if_pos (show (0 : Nat) = 0 from rfl)]
      · funext p c
        rw [if_neg]
        rintro ⟨h1, _⟩
        omega
  | succ k ih =>
      intro hk
      rw [forTrace_succ, applyTrace_append, ih (by omega),
          clearPageRun _ k (by omega)]
      refine Device.ext ?_ ?_ ?_ <;> dsimp only
      · rw [if_neg (show ¬ k + 1 = 0 by omega)]
      · rw [if_neg (show ¬ k + 1 = 0 by omega)]
      · funext p c
        dsimp only
        by_cases hin : p < k + 1 ∧ c < 128
        · rw [if_pos hin]
          by_cases hp : p = k
          · rw [if_pos (show p = k ∧ c < 128 from ⟨hp, hin.2⟩)]
          · rw [if_neg (show ¬ (p = k ∧ c < 128) by rintro ⟨h1, _⟩; exact hp h1),
                if_pos (show p < k ∧ c < 128 from ⟨by omega, hin.2⟩)]
        · rw [if_neg hin,
              if_neg (show ¬ (p = k ∧ c < 128) by
                rintro ⟨h1, h2⟩; exact hin ⟨by omega, h2⟩),
              if_neg (show ¬ (p < k ∧ c < 128) by
                rintro ⟨h1, h2⟩; exact hin ⟨by omega, h2⟩)]

lemma clearScreenRun (d : Device) :
    applyTrace d _clearScreen_t =
      { page := 0, col := 0,
        ram := fun p c => if p < 8 ∧ c < 128 then 0 else d.ram p c } := by
  rw [show _clearScreen_t = forTrace 8 (fun j =>
        setCharCursor_t j 0 ++ List.replicate 128 (wr 0 OLED_DATA_MODE))
        ++ setCharCursor_t 0 0 from rfl,
      applyTrace_append, clearPagesRun d 8 (by omega),
      applyTrace_setCharCursor_t _ 0 0 (by omega) (by omega)]

lemma clearRun (b : Buffer) (d : Device) :
    applyTrace d (clear b).2 =
      { page := 0, col := 0,
        ram := fun p c => if p < 8 ∧ c < 128 then 0 else d.ram p c } := by
  rw [show (clear b).2 = _clearScreen_t ++ setCharCursor_t 0 0 from rfl,
      applyTrace_append, clearScreenRun,
      applyTrace_setCharCursor_t _ 0 0 (by omega) (by omega)]

lemma cellsRun (d : Device) (X : Nat) (hX : X < 8) : ∀ k, k ≤ 16 →
    applyTrace d (forTrace k (fun j => _clearCharScreen_t X j))
      = { page := if k = 0 then d.page else if 8 * k = 128 then (X + 1) % 8 else X,
          col := if k = 0 then d.col else if 8 * k = 128 then 0 else 8 * k,
          ram := fun p c => if p = X ∧ c < 8 * k then 0 else d.ram p c } := by
  intro k
  induction k with
  | zero =>
      intro _
      rw [forTrace_zero, applyTrace_nil]
      refine Device.ext ?_ ?_ ?_ <;> dsimp only
      · rw [if_pos (show (0 : Nat) = 0 from rfl)]
      · rw [if_pos (show (0 : Nat) = 0 from rfl)]
      · funext p c
        rw [if_neg]
        rintro ⟨_, h2⟩
        omega
  | succ k ih =>
      intro hk
      rw [forTrace_succ, applyTrace_append, ih (by omega),
          cellScreenRun _ X k hX (by omega)]
      refine Device.ext ?_ ?_ ?_ <;> dsimp only
      · rw [if_neg (show ¬ k + 1 = 0 by omega)]
        by_cases h128 : 8 * (k + 1) = 128
        · rw [if_pos (show 8 * k + 8 = 128 by omega), if_pos h128]
        · rw [if_neg (show ¬ 8 * k + 8 = 128 by omega), if_neg h128]
      · rw [if_neg (show ¬ k + 1 = 0 by omega)]
        by_cases h128 : 8 * (k + 1) = 128
        · rw [if_pos (show 8 * k + 8 = 128 by omega), if_pos h128]
        · rw [if_neg (show ¬ 8 * k + 8 = 128 by omega), if_neg h128]
          omega
      · funext p c
        dsimp only
        by_cases hin : p = X ∧ c < 8 * (k + 1)
        · rw [if_pos hin]
          by_cases hband : 8 * k ≤ c
          · rw [if_pos (show p = X ∧ 8 * k ≤ c ∧ c < 8 * k + 8 from
                ⟨hin.1, hband, by omega⟩)]
          · rw [if_neg (show ¬ (p = X ∧ 8 * k ≤ c ∧ c < 8 * k + 8) by
                  rintro ⟨_, h2, _⟩; exact hband h2),
                if_pos (show p = X ∧ c < 8 * k from ⟨hin.1, by omega⟩)]
        · rw [if_neg hin,
              if_neg (show ¬ (p = X ∧ 8 * k ≤ c ∧ c < 8 * k + 8) by
                rintro ⟨h1, _, h3⟩; exact hin ⟨h1, by omega⟩),
              if_neg (show ¬ (p = X ∧ c < 8 * k) by
                rintro ⟨h1, h2⟩; exact hin ⟨h1, by omega⟩)]

lemma clearCharRowRun (b : Buffer) (d : Device) (X : Nat) (hX : X < 8) :
    applyTrace d (clearCharRow b X).2 =
      { page := 0, col := 0,
        ram := fun p c => if p = X ∧ c < 128 then 0 else d.ram p c } := by
  rw [clearCharRow_eq, applyTrace_append, cellsRun d X hX 16 (by omega),
      applyTrace_setCharCursor_t _ 0 0 (by omega) (by omega)]

/- ==================== Invariant preservation lemmas ====================== -/

lemma updBuf_same (b : Buffer) (c p v : Nat) : updBuf b c p v c p = v := by
  simp [updBuf]

lemma run_cmd_only (d : Device) (v : Nat)
    (h1 : ¬ (0xB0 ≤ v ∧ v < 0xB8)) (h2 : ¬ v < 0x10) (h3 : ¬ (0x10 ≤ v ∧ v < 0x20)) :
    applyTrace d [wr v OLED_CMD_MODE] = d := by
  rw [applyTrace_cons, applyWr_cmd_other d v h1 h2 h3, applyTrace_nil]

lemma pres_clear (b : Buffer) (d : Device) :
    BufMatchesRam (clear b).1 (applyTrace d (clear b).2) := by
  intro c hc p hp
  have hc' : c < 128 := hc
  have hp' : p < 8 := hp
  rw [show (clear b).1 = _clearBuffer b from rfl, _clearBuffer_eq, clearRun b d]
  dsimp only
  rw [if_pos ⟨hc', hp'⟩, if_pos ⟨hp', hc'⟩]

lemma pres_clearChar (b : Buffer) (d : Device) (X Y : Nat)
    (hX : X < 8) (hY : Y < 16) (hInv : BufMatchesRam b d) :
    BufMatchesRam (clearChar b X Y).1 (applyTrace d (clearChar b X Y).2) := by
  intro c hc p hp
  have hc' : c < 128 := hc
  have hp' : p < 8 := hp
  rw [show (clearChar b X Y).1 = _clearCharBuffer b X Y from rfl, _clearCharBuffer_eq,
      show (clearChar b X Y).2 = _clearCharScreen_t X Y ++ setCharCursor_t 0 0 from rfl,
      applyTrace_append, cellScreenRun d X Y hX hY,
      applyTrace_setCharCursor_t _ 0 0 (by omega) (by omega)]
  dsimp only
  by_cases hband : p = X ∧ 8 * Y ≤ c ∧ c < 8 * Y + 8
  · rw [if_pos (show (Y * 8 ≤ c ∧ c < Y * 8 + 8) ∧ p = X from
        ⟨⟨by omega, by omega⟩, hband.1⟩), if_pos hband]
  · rw [if_neg (show ¬ ((Y * 8 ≤ c ∧ c < Y * 8 + 8) ∧ p = X) by
        rintro ⟨⟨h1, h2⟩, h3⟩; exact hband ⟨h3, by omega, by omega⟩), if_neg hband]
    exact hInv c hc p hp

lemma pres_clearCharRow (b : Buffer) (d : Device) (X : Nat)
    (hX : X < 8) (hInv : BufMatchesRam b d) :
    BufMatchesRam (clearCharRow b X).1 (applyTrace d (clearCharRow b X).2) := by
  intro c hc p hp
  have hc' : c < 128 := hc
  have hp' : p < 8 := hp
  rw [clearCharRowRun b d X hX,
      show (clearCharRow b X).1
        = (List.range 16).foldl (fun b j => _clearCharBuffer b X j) b from
        congrArg Prod.fst (clearCharRow_eq b X),
      clearCharRowBuffer_aux b X 16]
  dsimp only
  by_cases hband : p = X
  · rw [if_pos (show c < 8 * 16 ∧ p = X from ⟨by omega, hband⟩),
        if_pos (show p = X ∧ c < 128 from ⟨hband, hc'⟩)]
  · rw [if_neg (show ¬ (c < 8 * 16 ∧ p = X) by rintro ⟨_, h2⟩; exact hband h2),
        if_neg (show ¬ (p = X ∧ c < 128) by rintro ⟨h1, _⟩; exact hband h1)]
    exact hInv c hc p hp

lemma pres_setPixel (b : Buffer) (d : Device) (row col : Nat) (val : Bool)
    (hrow : row < 64) (hcol : col < 128) (hInv : BufMatchesRam b d) :
    BufMatchesRam (setPixel b row col val).1
      (applyTrace d (setPixel b row col val).2) := by
  intro c hc p hp
  have hc' : c < 128 := hc
  have hp' : p < 8 := hp
  rw [show (setPixel b row col val).2
        = setCursor_t (row / 8) col
          ++ [wr ((setPixel b row col val).1 col (row / 8)) OLED_DATA_MODE] from rfl,
      applyTrace_append, applyTrace_setCursor_t d (row / 8) col (by omega) hcol,
      applyTrace_cons, applyWr_data, applyTrace_nil]
  dsimp only [updRam]
  rw [show (setPixel b row col val).1
        = updBuf b col (row / 8)
            ((b col (row / 8) ||| ((if val then 1 else 0) <<< (row % 8))) % 256)
        from rfl]
  by_cases hpt : c = col ∧ p = row / 8
  · rw [show updBuf b col (row / 8)
          ((b col (row / 8) ||| ((if val then 1 else 0) <<< (row % 8))) % 256) c p
        = (b col (row / 8) ||| ((if val then 1 else 0) <<< (row % 8))) % 256 from by
        simp only [updBuf]; rw [if_pos hpt],
        if_pos (show p = row / 8 ∧ c = col from ⟨hpt.2, hpt.1⟩),
        updBuf_same]
  · rw [show updBuf b col (row / 8)
          ((b col (row / 8) ||| ((if val then 1 else 0) <<< (row % 8))) % 256) c p
        = b c p from by
        simp only [updBuf]; rw [if_neg hpt],
        if_neg (show ¬ (p = row / 8 ∧ c = col) by
          rintro ⟨h1, h2⟩; exact hpt ⟨h2, h1⟩)]
    exact hInv c hc p hp

lemma step_preserves (s : Buffer × Device) (call : TrackedCall)
    (hcall : call.InRange = true) (hInv : BufMatchesRam s.1 s.2) :
    BufMatchesRam (step s call).1 (step s call).2 := by
  cases call with
  | clear =>
      simp only [step, callRun]
      exact pres_clear s.1 s.2
  | clearChar X Y =>
      simp only [TrackedCall.InRange, Bool.and_eq_true, decide_eq_true_eq] at hcall
      simp only [step, callRun]
      exact pres_clearChar s.1 s.2 X Y hcall.1 hcall.2 hInv
  | clearCharRow X =>
      simp only [TrackedCall.InRange, decide_eq_true_eq] at hcall
      simp only [step, callRun]
      exact pres_clearCharRow s.1 s.2 X hcall hInv
  | setPixel row col val =>
      simp only [TrackedCall.InRange, Bool.and_eq_true, decide_eq_true_eq] at hcall
      simp only [step, callRun]
      exact pres_setPixel s.1 s.2 row col val hcall.1 hcall.2 hInv
  | powerOn =>
      simp only [step, callRun, powerOn]
      rw [run_cmd_only s.2 OLED_ON (by decide) (by decide) (by decide)]
      exact hInv
  | powerOff =>
      simp only [step, callRun, powerOff]
      rw [run_cmd_only s.2 OLED_OFF (by decide) (by decide) (by decide)]
      exact hInv
  | setInvertedDisplay val =>
      cases val with
      | true =>
          simp only [step, callRun, setInvertedDisplay]
          rw [if_pos trivial]
          rw [run_cmd_only s.2 OLED_INVERTDISPLAY (by decide) (by decide) (by decide)]
          exact hInv
      | false =>
          simp only [step, callRun, setInvertedDisplay]
          rw [if_neg (show ¬ (false = true) by decide),
              run_cmd_only s.2 OLED_NORMALDISPLAY (by decide) (by decide) (by decide)]
          exact hInv

lemma runCalls_preserves : ∀ (calls : List TrackedCall) (s : Buffer × Device),
    BufMatchesRam s.1 s.2 → (∀ call ∈ calls, call.InRange = true) →
    BufMatchesRam (runCalls s calls).1 (runCalls s calls).2 := by
  intro calls
  induction calls with
  | nil => intro s hs _; exact hs
  | cons a l ih =>
      intro s hs hcs
      rw [show runCalls s (a :: l) = runCalls (step s a) l from rfl]
      exact ih (step s a)
        (step_preserves s a (hcs a (by simp)) hs)
        (fun c hc => hcs c (by simp [hc]))

/- ===================== Image blit (drawImage) run ======================== -/

lemma getD_map_range (f : Nat → Nat) (n i : Nat) (h : i < n) :
    ((List.range n).map f).getD i 0 = f i := by
  rw [List.getD_eq_getElem?_getD, List.getElem?_map, List.getElem?_range h]
  rfl

lemma blitRun (data : Nat → Nat) (dev : Device)
    (hp : dev.page = 0) (hc : dev.col = 0) : ∀ k, k ≤ 8 →
    applyTrace dev (dataTrace ((List.range (k * 128)).map data)) =
      { page := k % 8, col := 0,
        ram := fun p c => if p < k ∧ c < 128 then data (p * 128 + c)
                          else dev.ram p c } := by
  intro k
  induction k with
  | zero =>
      intro _
      rw [show (0 * 128 : Nat) = 0 from rfl, List.range_zero, List.map_nil,
          show dataTrace [] = [] from rfl, applyTrace_nil]
      refine Device.ext ?_ ?_ ?_
      · rw [hp]
      · rw [hc]
      · funext p c
        dsimp only
        rw [if_neg]
        rintro ⟨h1, _⟩
        omega
  | succ k ih =>
      intro hk
      have hsplit : List.range ((k + 1) * 128)
          = List.range (k * 128) ++ (List.range 128).map (fun x => k * 128 + x) := by
        rw [show (k + 1) * 128 = k * 128 + 128 by ring, List.range_add]
      rw [hsplit, List.map_append, show dataTrace ((List.range (k * 128)).map data
            ++ ((List.range 128).map (fun x => k * 128 + x)).map data)
          = dataTrace ((List.range (k * 128)).map data)
            ++ dataTrace (((List.range 128).map (fun x => k * 128 + x)).map data)
          from by simp [dataTrace],
          applyTrace_append, ih (by omega), List.map_map,
          applyTrace_dataTrace (((List.range 128)).map (data ∘ fun x => k * 128 + x))
            { page := k % 8, col := 0,
              ram := fun p c => if p < k ∧ c < 128 then data (p * 128 + c)
                                else dev.ram p c }
            (show 0 + ((List.range 128).map (data ∘ fun x => k * 128 + x)).length ≤ 128
              by simp)
            (show (0 : Nat) < 128 by omega)]
  -- close the record equality
      have hk8 : k % 8 = k := Nat.mod_eq_of_lt (by omega)
      refine Device.ext ?_ ?_ ?_ <;>
        dsimp only <;> simp only [List.length_map, List.length_range]
      · rw [if_pos trivial]
        omega
      · rw [if_pos trivial]
      · funext p c
        by_cases hin : p < k + 1 ∧ c < 128
        · rw [if_pos hin]
          by_cases hptop : p = k
          · rw [if_pos (show p = k % 8 ∧ 0 ≤ c ∧ c < 0 + 128 from
                  ⟨by omega, by omega, by omega⟩),
                show c - 0 = c from rfl,
                getD_map_range (data ∘ fun x => k * 128 + x) 128 c (by omega)]
            simp only [Function.comp]
            rw [hptop]
          · rw [if_neg (show ¬ (p = k % 8 ∧ 0 ≤ c ∧ c < 0 + 128) by
                  rintro ⟨h1, _⟩; exact hptop (by omega)),
                if_pos (show p < k ∧ c < 128 from ⟨by omega, hin.2⟩)]
        · rw [if_neg hin,
              if_neg (show ¬ (p = k % 8 ∧ 0 ≤ c ∧ c < 0 + 128) by
                rintro ⟨h1, _, h3⟩; exact hin ⟨by omega, by omega⟩),
              if_neg (show ¬ (p < k ∧ c < 128) by
                rintro ⟨h1, h2⟩; exact hin ⟨by omega, h2⟩)]

/- ========================= dataBytes lemmas ============================== -/

lemma dataBytes_append (t1 t2 : List Wr) :
    dataBytes (t1 ++ t2) = dataBytes t1 ++ dataBytes t2 := by
  simp [dataBytes]

lemma dataBytes_setCharCursor (X Y : Nat) : dataBytes (setCharCursor_t X Y) = [] := by
  simp [dataBytes, setCharCursor_t, wr, OLED_CMD_MODE, OLED_DATA_MODE]

lemma dataBytes_replicate (n v : Nat) :
    dataBytes (List.replicate n (wr v OLED_DATA_MODE)) = List.replicate n v := by
  simp [dataBytes, List.filter_replicate, wr]

/- ============================ Claim theorems ============================= -/

/-- C2 counterexample: `powerOn()` does not transmit the power-down opcode
`OLED_OFF` (0xAE), and `powerOff()` does not transmit the power-up opcode
`OLED_ON` (0xAF): the claim's description of the transmitted bytes is false. -/
theorem C2_counterexample :
    (powerOn buffer0).2 ≠ [wr OLED_OFF OLED_CMD_MODE]
    ∧ (powerOff buffer0).2 ≠ [wr OLED_ON OLED_CMD_MODE] := by
  refine ⟨?_, ?_⟩ <;> decide

/-- C2 (amended): `powerOn()` transmits 0xAF, which is the named power-up
opcode `OLED_ON`, and `powerOff()` transmits 0xAE, the named power-down opcode
`OLED_OFF`; each operation sends the opcode matching its own name. (What is
swapped in the source is only the two documentation comments.) -/
theorem C2_power_opcodes (b : Buffer) :
    (powerOn b).2 = [wr 0xAF OLED_CMD_MODE]
    ∧ (powerOff b).2 = [wr 0xAE OLED_CMD_MODE]
    ∧ OLED_ON = 0xAF ∧ OLED_OFF = 0xAE :=
  ⟨rfl, rfl, rfl, rfl⟩

/-- C3 counterexample: the 100-byte bar body streamed by
`drawProgressBar(0, 0)` after positioning at pixel column 13 is not all-0x42:
its byte at index 0 is the filled pattern 0x7E, because the fill condition
`percent >= i` holds at `i = 0` even for `percent = 0`. -/
theorem C3_counterexample :
    progressBody 0 ≠ List.replicate 100 (wr 0x42 OLED_DATA_MODE)
    ∧ (progressBody 0).getD 0 (wr 0 0) = wr 0x7E OLED_DATA_MODE
    ∧ (drawProgressBar buffer0 0 0).2
      = (clearCharRow buffer0 0).2 ++ setCursor_t 0 12 ++ [wr 0x7E OLED_DATA_MODE]
        ++ setCursor_t 0 113 ++ [wr 0x7E OLED_DATA_MODE]
        ++ setCursor_t 0 13 ++ progressBody 0 := by
  refine ⟨by decide, by decide, ?_⟩
  rfl

/-- C3 (amended): for every row `X`, the bar-body stream of
`drawProgressBar(X, 0)` is one filled byte 0x7E (index 0) followed by 99 empty
bytes 0x42, and the bar-body stream of `drawProgressBar(X, 100)` is 100 filled
bytes 0x7E; the `percent = 0` call clears the character row first. -/
theorem C3_progress_bar_extremes (b : Buffer) (X : Nat) :
    (drawProgressBar b X 0).2
      = (clearCharRow b X).2 ++ setCursor_t X 12 ++ [wr 0x7E OLED_DATA_MODE]
        ++ setCursor_t X 113 ++ [wr 0x7E OLED_DATA_MODE]
        ++ setCursor_t X 13
        ++ (wr 0x7E OLED_DATA_MODE :: List.replicate 99 (wr 0x42 OLED_DATA_MODE))
    ∧ (drawProgressBar b X 100).2
      = setCursor_t X 12 ++ [wr 0x7E OLED_DATA_MODE]
        ++ setCursor_t X 113 ++ [wr 0x7E OLED_DATA_MODE]
        ++ setCursor_t X 13 ++ List.replicate 100 (wr 0x7E OLED_DATA_MODE) := by
  have hbody0 : progressBody 0
      = wr 0x7E OLED_DATA_MODE :: List.replicate 99 (wr 0x42 OLED_DATA_MODE) := by
    decide
  have hbody100 : progressBody 100 = List.replicate 100 (wr 0x7E OLED_DATA_MODE) := by
    decide
  constructor
  · rw [show (drawProgressBar b X 0).2
        = (clearCharRow b X).2 ++ setCursor_t X 12 ++ [wr 0x7E OLED_DATA_MODE]
          ++ setCursor_t X 113 ++ [wr 0x7E OLED_DATA_MODE]
          ++ setCursor_t X 13 ++ progressBody 0 from rfl, hbody0]
  · rw [show (drawProgressBar b X 100).2
        = ([] : List Wr) ++ setCursor_t X 12 ++ [wr 0x7E OLED_DATA_MODE]
          ++ setCursor_t X 113 ++ [wr 0x7E OLED_DATA_MODE]
          ++ setCursor_t X 13 ++ progressBody 100 from rfl, hbody100]
    simp only [List.nil_append]

/-- C5 (code bug): `drawHLine(9)` positions the cursor at cell (1, 0) — page
`9/8 = 1`, column 0 — but its loop `for (char i = 0; i < 128; i++)` never
exits on the library's signed-`char` targets: the promoted guard `i < 128`
holds after every number of increments (first conjunct), so the call streams
the byte 0x02 (bit `9 % 8 = 1` set) forever instead of exactly 128 times, and
never reaches the cursor reset nor returns. After `n` iterations the emitted
trace is the positioning prefix followed by `n` copies of 0x02 (second
conjunct); in particular after 129 iterations the data stream already holds
129 bytes, exceeding the 128 the claim asserts (third conjunct). -/
theorem C5_drawHLine9_bug :
    (∀ k : Nat, i8ToInt (k % 256) < 128)
    ∧ (∀ n : Nat, (drawHLine buffer0 9 n).2
        = setCharCursor_t 1 0 ++ List.replicate n (wr 0x02 OLED_DATA_MODE))
    ∧ (dataBytes (drawHLine buffer0 9 129).2).length = 129 := by
  have hguard : ∀ k : Nat, i8ToInt (k % 256) < 128 := by
    intro k
    have hlt : k % 256 < 256 := Nat.mod_lt _ (by omega)
    rw [i8ToInt]
    split_ifs with h
    · exact_mod_cast h
    · have : ((k % 256 : Nat) : Int) < 256 := by exact_mod_cast hlt
      omega
  have htr : ∀ n : Nat, (drawHLine buffer0 9 n).2
      = setCharCursor_t 1 0 ++ List.replicate n (wr 0x02 OLED_DATA_MODE) :=
    fun n => rfl
  refine ⟨hguard, htr, ?_⟩
  rw [htr 129, dataBytes_append, dataBytes_setCharCursor, dataBytes_replicate]
  simp

/-- C8: `drawStr`, `drawHLine` and `drawVLine` leave the shadow buffer exactly
as it was: they only transmit to the device and never write `_buffer`
(for `drawHLine`, whose loop does not terminate, after every number `n` of
loop iterations). -/
theorem C8_draw_no_buffer_change (b : Buffer) (s : List Nat) (X Y : Nat)
    (font : Nat → Nat → Nat) (row col n : Nat) :
    (drawStr b s X Y font).1 = b
    ∧ (drawHLine b row n).1 = b
    ∧ (drawVLine b col).1 = b :=
  ⟨rfl, rfl, rfl⟩

/-- C4: for in-range `(row, col)` and any prior buffer whose addressed byte is
a byte value, `setPixel(row, col, true)` sets bit `row % 8` of the shadow byte
at `[col][row/8]`, preserves every other bit of that byte (read-modify-write
OR), and then transmits exactly the three cursor-positioning commands for page
`row/8`, column `col`, followed by the updated shadow byte as data. -/
theorem C4_setPixel_true (b : Buffer) (row col : Nat)
    (hrow : row < 64) (hcol : col < 128) (hbyte : b col (row / 8) < 256) :
    Nat.testBit ((setPixel b row col true).1 col (row / 8)) (row % 8) = true
    ∧ (∀ k, k ≠ row % 8 →
        Nat.testBit ((setPixel b row col true).1 col (row / 8)) k
          = Nat.testBit (b col (row / 8)) k)
    ∧ (setPixel b row col true).2
      = setCursor_t (row / 8) col
        ++ [wr ((setPixel b row col true).1 col (row / 8)) OLED_DATA_MODE]
    ∧ (∀ dev : Device,
        applyTrace dev (setPixel b row col true).2
          = Device.applyWr { page := row / 8, col := col, ram := dev.ram }
              (wr ((setPixel b row col true).1 col (row / 8)) OLED_DATA_MODE)) := by
  have hv : (setPixel b row col true).1 col (row / 8)
      = (b col (row / 8) ||| 1 <<< (row % 8)) % 256 :=
    updBuf_same b col (row / 8) _
  have hpow : 1 <<< (row % 8) = 2 ^ (row % 8) := by
    rw [Nat.shiftLeft_eq, one_mul]
  have hr8 : row % 8 < 8 := Nat.mod_lt _ (by omega)
  have hplt : 2 ^ (row % 8) < 256 := by
    calc 2 ^ (row % 8) < 2 ^ 8 := Nat.pow_lt_pow_right (by omega) hr8
    _ = 256 := by norm_num
  have hlt : b col (row / 8) ||| 2 ^ (row % 8) < 256 := by
    have h256 : (256 : Nat) = 2 ^ 8 := by norm_num
    rw [h256]
    exact Nat.or_lt_two_pow (h256 ▸ hbyte) (h256 ▸ hplt)
  have hv' : (setPixel b row col true).1 col (row / 8)
      = b col (row / 8) ||| 2 ^ (row % 8) := by
    rw [hv, hpow, Nat.mod_eq_of_lt hlt]
  refine ⟨?_, ?_, rfl, ?_⟩
  · rw [hv', Nat.testBit_lor, Nat.testBit_two_pow_self, Bool.or_true]
  · intro k hk
    rw [hv', Nat.testBit_lor, Nat.testBit_two_pow_of_ne (fun h => hk h.symm),
        Bool.or_false]
  · intro dev
    rw [show (setPixel b row col true).2
          = setCursor_t (row / 8) col
            ++ [wr ((setPixel b row col true).1 col (row / 8)) OLED_DATA_MODE]
          from rfl,
        applyTrace_append, applyTrace_setCursor_t dev (row / 8) col (by omega) hcol,
        applyTrace_cons, applyTrace_nil]

/-- C4 witness: concrete instance at row 9, col 5 on the buffer whose bytes are
all 0x41. -/
theorem C4_setPixel_true_witness :
    (9 < 64 ∧ 5 < 128 ∧ bTest 5 (9 / 8) < 256)
    ∧ Nat.testBit ((setPixel bTest 9 5 true).1 5 (9 / 8)) (9 % 8) = true :=
  ⟨⟨by decide, by decide, by decide⟩,
   (C4_setPixel_true bTest 9 5 (by decide) (by decide) (by decide)).1⟩

/-- C10: for in-range `(row, col)` and any prior buffer whose addressed byte is
a byte value, `setPixel(row, col, false)` leaves every shadow-buffer byte
unchanged (OR with 0 never clears a lit pixel), yet still issues the three
cursor-positioning commands for page `row/8`, column `col`, and transmits the
existing unchanged shadow byte at `[col][row/8]` as data. -/
theorem C10_setPixel_false (b : Buffer) (row col : Nat)
    (hrow : row < 64) (hcol : col < 128) (hbyte : b col (row / 8) < 256) :
    (setPixel b row col false).1 = b
    ∧ (setPixel b row col false).2
      = setCursor_t (row / 8) col ++ [wr (b col (row / 8)) OLED_DATA_MODE]
    ∧ (∀ dev : Device,
        applyTrace dev (setPixel b row col false).2
          = Device.applyWr { page := row / 8, col := col, ram := dev.ram }
              (wr (b col (row / 8)) OLED_DATA_MODE)) := by
  have hval : (b col (row / 8) ||| (if false then 1 else 0) <<< (row % 8)) % 256
      = b col (row / 8) := by
    rw [show (if false then 1 else 0) = 0 from rfl, Nat.zero_shiftLeft,
        Nat.or_zero, Nat.mod_eq_of_lt hbyte]
  have hbuf : (setPixel b row col false).1 = b := by
    rw [show (setPixel b row col false).1
          = updBuf b col (row / 8)
              ((b col (row / 8) ||| (if false then 1 else 0) <<< (row % 8)) % 256)
          from rfl, hval]
    funext c' p'
    simp only [updBuf]
    split_ifs with h
    · rw [h.1, h.2]
    · rfl
  have htr : (setPixel b row col false).2
      = setCursor_t (row / 8) col ++ [wr (b col (row / 8)) OLED_DATA_MODE] := by
    rw [show (setPixel b row col false).2
          = setCursor_t (row / 8) col
            ++ [wr ((setPixel b row col false).1 col (row / 8)) OLED_DATA_MODE]
          from rfl, hbuf]
  refine ⟨hbuf, htr, ?_⟩
  intro dev
  rw [htr, applyTrace_append, applyTrace_setCursor_t dev (row / 8) col (by omega) hcol,
      applyTrace_cons, applyTrace_nil]

/-- C10 witness: concrete instance at row 9, col 5 on the buffer whose bytes
are all 0x41. -/
theorem C10_setPixel_false_witness :
    (9 < 64 ∧ 5 < 128 ∧ bTest 5 (9 / 8) < 256)
    ∧ (setPixel bTest 9 5 false).1 = bTest :=
  ⟨⟨by decide, by decide, by decide⟩,
   (C10_setPixel_false bTest 9 5 (by decide) (by decide) (by decide)).1⟩

lemma progressBody_getD (percent : Int) (i : Nat) (h : i < 100) :
    (progressBody percent).getD i (wr 0 0)
      = wr (if (i : Int) ≤ percent then 0x7E else 0x42) OLED_DATA_MODE := by
  rw [progressBody, List.getD_eq_getElem?_getD, List.getElem?_map,
      List.getElem?_range h]
  simp only [Option.map_some', Option.getD_some]

/-- C6: for every row `X` and `percent` in [0, 100], `drawProgressBar` first
clears the character row exactly when `percent = 0`, then writes the
boundary-marker byte 0x7E after positioning at pixel column 12 and again at
pixel column 113, then positions at pixel column 13 and streams the 100-byte
bar body whose byte at index `i` is 0x7E when `i ≤ percent` and 0x42
otherwise; the shadow buffer is modified exactly when `percent = 0`. -/
theorem C6_drawProgressBar_spec (b : Buffer) (X : Nat) (percent : Int)
    (h0 : 0 ≤ percent) (h1 : percent ≤ 100) :
    (drawProgressBar b X percent).2
      = (if percent = 0 then (clearCharRow b X).2 else [])
        ++ setCursor_t X 12 ++ [wr 0x7E OLED_DATA_MODE]
        ++ setCursor_t X 113 ++ [wr 0x7E OLED_DATA_MODE]
        ++ setCursor_t X 13 ++ progressBody percent
    ∧ (∀ i, i < 100 → (progressBody percent).getD i (wr 0 0)
        = wr (if (i : Int) ≤ percent then 0x7E else 0x42) OLED_DATA_MODE)
    ∧ (drawProgressBar b X percent).1
      = (if percent = 0 then (clearCharRow b X).1 else b) := by
  refine ⟨?_, fun i hi => progressBody_getD percent i hi, ?_⟩
  · by_cases hz : percent = 0
    · subst hz
      rw [if_pos (show (0 : Int) = 0 from rfl)]
      rfl
    · simp only [drawProgressBar]
      rw [if_neg hz, if_neg hz]
  · by_cases hz : percent = 0
    · subst hz
      rw [if_pos (show (0 : Int) = 0 from rfl)]
      rfl
    · simp only [drawProgressBar]
      rw [if_neg hz, if_neg hz]

/-- C6 witness: concrete instance at row 2, percent 50. -/
theorem C6_drawProgressBar_spec_witness :
    ((0 : Int) ≤ 50 ∧ (50 : Int) ≤ 100)
    ∧ (progressBody 50).getD 10 (wr 0 0)
      = wr (if ((10 : Nat) : Int) ≤ 50 then 0x7E else 0x42) OLED_DATA_MODE :=
  ⟨⟨by decide, by decide⟩,
   (C6_drawProgressBar_spec buffer0 2 50 (by decide) (by decide)).2.1 10 (by decide)⟩

/-- C7: for an in-range cell `(r, c)`, `clearChar(r, c)` zeroes exactly the 8
shadow-buffer bytes `[c*8+i][r]` (i = 0..7), leaves every other shadow byte
unchanged, and finishes by repositioning the device cursor to cell (0, 0). -/
theorem C7_clearChar_frame (b : Buffer) (r c : Nat) (hr : r < 8) (hc : c < 16) :
    (∀ i, i < 8 → (clearChar b r c).1 (c * 8 + i) r = 0)
    ∧ (∀ col page, ¬ (page = r ∧ c * 8 ≤ col ∧ col < c * 8 + 8)
        → (clearChar b r c).1 col page = b col page)
    ∧ (∀ dev : Device, (applyTrace dev (clearChar b r c).2).page = 0
        ∧ (applyTrace dev (clearChar b r c).2).col = 0)
    ∧ (clearChar b r c).2 = _clearCharScreen_t r c ++ setCharCursor_t 0 0 := by
  have hbuf : (clearChar b r c).1 = _clearCharBuffer b r c := rfl
  refine ⟨?_, ?_, ?_, rfl⟩
  · intro i hi
    rw [hbuf, _clearCharBuffer_eq]
    dsimp only
    rw [if_pos ⟨⟨by omega, by omega⟩, rfl⟩]
  · intro col page hno
    rw [hbuf, _clearCharBuffer_eq]
    dsimp only
    rw [if_neg]
    rintro ⟨⟨a1, a2⟩, a3⟩
    exact hno ⟨a3, a1, a2⟩
  · intro dev
    rw [show (clearChar b r c).2
          = _clearCharScreen_t r c ++ setCharCursor_t 0 0 from rfl,
        applyTrace_append, applyTrace_setCharCursor_t _ 0 0 (by omega) (by omega)]
    exact ⟨rfl, rfl⟩

/-- C7 witness: concrete instance at cell (2, 3) on the buffer whose bytes are
all 0x41. -/
theorem C7_clearChar_frame_witness :
    (2 < 8 ∧ 3 < 16) ∧ (clearChar bTest 2 3).1 (3 * 8 + 0) 2 = 0 :=
  ⟨⟨by decide, by decide⟩,
   (C7_clearChar_frame bTest 2 3 (by decide) (by decide)).1 0 (by decide)⟩

/-- C9: `drawImage(data)` first clears the display and the shadow buffer,
positions the cursor at cell (0, 0), then streams exactly the first 1024 input
bytes verbatim as data, in order; running the whole trace on any device leaves
RAM byte `(p, c)` equal to input byte `p*128 + c` for every page `p < 8` and
column `c < 128` (column-major page order), and two inputs agreeing on their
first 1024 bytes produce identical calls (bytes beyond the 1024th ignored). -/
theorem C9_drawImage_spec (b : Buffer) (dev : Device) (data1 data2 : Nat → Nat)
    (hagree : ∀ i, i < 1024 → data1 i = data2 i) :
    (drawImage b data1).1 = _clearBuffer b
    ∧ (drawImage b data1).2
      = (clear b).2 ++ setCharCursor_t 0 0 ++ dataTrace ((List.range 1024).map data1)
    ∧ (∀ p c, p < 8 → c < 128 →
        (applyTrace dev (drawImage b data1).2).ram p c = data1 (p * 128 + c))
    ∧ drawImage b data1 = drawImage b data2 := by
  have hdt : ∀ f : Nat → Nat,
      dataTrace ((List.range 1024).map f)
        = (List.range 1024).map (fun i => wr (f i) OLED_DATA_MODE) := by
    intro f
    rw [dataTrace, List.map_map]
    rfl
  have htr : ∀ f : Nat → Nat, (drawImage b f).2
      = (clear b).2 ++ setCharCursor_t 0 0 ++ dataTrace ((List.range 1024).map f) := by
    intro f
    rw [hdt f]
    rfl
  refine ⟨rfl, htr data1, ?_, ?_⟩
  · intro p c hp hc
    rw [htr data1, applyTrace_append, applyTrace_append, clearRun,
        applyTrace_setCharCursor_t _ 0 0 (by omega) (by omega),
        show List.range 1024 = List.range (8 * 128) from rfl,
        blitRun data1 _ rfl rfl 8 (by omega)]
    dsimp only
    rw [if_pos ⟨hp, hc⟩]
  · have hmap : (List.range 1024).map data1 = (List.range 1024).map data2 :=
      List.map_congr_left (fun i hi => hagree i (List.mem_range.mp hi))
    have h2 : (drawImage b data1).2 = (drawImage b data2).2 := by
      rw [htr data1, htr data2, hmap]
    have h1 : (drawImage b data1).1 = (drawImage b data2).1 := rfl
    calc drawImage b data1 = ((drawImage b data1).1, (drawImage b data1).2) := rfl
    _ = ((drawImage b data2).1, (drawImage b data2).2) := by rw [h1, h2]
    _ = drawImage b data2 := rfl

/-- C9 witness: concrete instance with the constant-7 image on the cleared
buffer and cleared device. -/
theorem C9_drawImage_spec_witness :
    (∀ i, i < 1024 → (fun _ : Nat => 7) i = (fun _ : Nat => 7) i)
    ∧ (drawImage buffer0 (fun _ : Nat => 7)).1 = _clearBuffer buffer0 :=
  ⟨fun i _ => rfl,
   (C9_drawImage_spec buffer0 dev0 (fun _ => 7) (fun _ => 7) (fun i _ => rfl)).1⟩

set_option maxRecDepth 4000 in
/-- C1 counterexample: from the cleared state, the single primitive call
`drawVLine(0)` — which terminates after its 8 fixed iterations — leaves the
shadow buffer diverged from the modelled device memory once it returns: the
device RAM byte at page 0, column 0 becomes 0xFF while the shadow byte
`[0][0]` stays 0. -/
theorem C1_counterexample :
    ¬ BufMatchesRam (drawVLine buffer0 0).1
        (applyTrace dev0 (drawVLine buffer0 0).2)
    ∧ (drawVLine buffer0 0).1 0 0 = 0
    ∧ (applyTrace dev0 (drawVLine buffer0 0).2).ram 0 0 = 0xFF := by
  have h1 : (drawVLine buffer0 0).1 0 0 = 0 := rfl
  have h2 : (applyTrace dev0 (drawVLine buffer0 0).2).ram 0 0 = 0xFF := by decide
  refine ⟨fun h => ?_, h1, h2⟩
  have h00 := h 0 (by decide) 0 (by decide)
  rw [h1, h2] at h00
  exact absurd h00 (by decide)

/-- C1 (amended): for every finite sequence of in-range calls to the
buffer-tracked primitives — `clear`, `clearChar`, `clearCharRow`, `setPixel` —
and the command-only operations `powerOn`, `powerOff`, `setInvertedDisplay`,
starting from the cleared state, the shadow buffer equals the modelled device
RAM at every in-range location after every call returns. (The original claim
over all drawing primitives is false: `drawStr`, `drawImage`, `drawHLine`,
`drawVLine` and `drawProgressBar` write the device without updating the
shadow buffer.) -/
theorem C1_tracked_invariant (calls : List TrackedCall)
    (h : ∀ call ∈ calls, call.InRange = true) :
    BufMatchesRam (runCalls (buffer0, dev0) calls).1
      (runCalls (buffer0, dev0) calls).2 :=
  runCalls_preserves calls (buffer0, dev0) (fun _ _ _ _ => rfl) h

/-- C1 witness: the invariant after the single tracked call
`setPixel(9, 5, true)` from the cleared state. -/
theorem C1_tracked_invariant_witness :
    (∀ call ∈ [TrackedCall.setPixel 9 5 true], call.InRange = true)
    ∧ BufMatchesRam (runCalls (buffer0, dev0) [TrackedCall.setPixel 9 5 true]).1
        (runCalls (buffer0, dev0) [TrackedCall.setPixel 9 5 true]).2 :=
  ⟨by decide, C1_tracked_invariant [TrackedCall.setPixel 9 5 true] (by decide)⟩
